import Mathlib

/-!
Verification of the voice-ai-orch frontend core against its specification.

The definitions below are a shallow embedding of the TypeScript source:

* `runReconciler` embeds the `agentTranscriptions` effect of `ActiveCall`
  (src/frontend/src/components/RagSources.tsx, lines 154-181), with the three
  mutable refs (`committedIndexRef`, `lastTextRef`, `streamingActiveRef`)
  gathered into `ReconcilerState`; one call is one run of the effect, and the
  returned list is the sequence of `onAgentStream` calls it makes (at most one).
* `handleData` embeds the data-channel handler (same file, lines 184-203).
* `handleTranscript` / `handleAgentStream` embed the App-level transcript
  handlers (App component), with `isStreamingRef` and the message list
  gathered into `AppState`.
* `getToken` .. `stopAgent` embed the backend API client
  (src/frontend/src/api/client.ts), with the awaited `fetch` response
  abstracted as a `Resp` record carrying its `ok` flag and decoded body.
* `acquireSession` / `releaseSession` are modelled from the spec (the backend
  session lock is not among the provided sources).
-/

/-- One speech-recognition segment as exposed by `useVoiceAssistant`:
its ordinal is its index in the `agentTranscriptions` list. -/
structure Segment where
  text : String
  final : Bool
deriving DecidableEq, Repr

/-- The three mutable refs of `ActiveCall` that the transcription effect
reads and writes: `committedIndexRef`, `lastTextRef`, `streamingActiveRef`. -/
structure ReconcilerState where
  committedIndex : Nat
  lastText : String
  streamingActive : Bool
deriving DecidableEq, Repr

/-- `currentSegments.map(s => s.text).join(' ')`. -/
def joinTexts (segs : List Segment) : String :=
  String.intercalate " " (segs.map (fun s => s.text))

/-- `currentSegments.every(s => s.final)`. -/
def allFinal (segs : List Segment) : Bool :=
  segs.all (fun s => s.final)

/-- One run of the `agentTranscriptions` effect of `ActiveCall`
(RagSources.tsx lines 154-181).  Returns the updated ref state and the list of
`onAgentStream(text, allFinal)` calls made during the run. -/
def runReconciler (agentTranscriptions : List Segment) (st : ReconcilerState) :
    ReconcilerState × List (String × Bool) :=
  if agentTranscriptions.length = 0 then
    ({ committedIndex := 0, lastText := "", streamingActive := st.streamingActive }, [])
  else
    let currentSegments := agentTranscriptions.drop st.committedIndex
    if currentSegments.length = 0 then (st, [])
    else
      let text := joinTexts currentSegments
      let aF := allFinal currentSegments
      let st1 := if text ≠ st.lastText
        then { st with lastText := text, streamingActive := true }
        else st
      let evs : List (String × Bool) := if text ≠ st.lastText then [(text, aF)] else []
      if aF then ({ st1 with committedIndex := agentTranscriptions.length, lastText := "" }, evs)
      else (st1, evs)

/-- Fold a sequence of effect runs (one per snapshot of `agentTranscriptions`),
collecting every `onAgentStream` emission in order. -/
def runAll : List (List Segment) → ReconcilerState → ReconcilerState × List (String × Bool)
  | [], st => (st, [])
  | s :: rest, st =>
    let p := runReconciler s st
    let q := runAll rest p.1
    (q.1, p.2 ++ q.2)

example : runReconciler [⟨"hi", true⟩] ⟨0, "", false⟩ =
    (⟨1, "", true⟩, [("hi", true)]) := by decide

example : runAll [[⟨"a", false⟩], [⟨"a", true⟩]] ⟨0, "", false⟩ =
    (⟨1, "", true⟩, [("a", false)]) := by decide

/-- Transcript roles: the literal strings `'user'` and `'agent'`. -/
inductive Role where
  | user
  | agent
deriving DecidableEq, Repr

/-- `{ role, text }` messages appended to the transcript list. -/
structure TranscriptMessage where
  role : Role
  text : String
deriving DecidableEq, Repr

/-- A retrieved chunk as carried by `rag_sources` events. -/
structure RagSource where
  text : String
  score : Option ℚ
  filename : String
  doc_id : String
deriving DecidableEq, Repr

/-- A decoded data-channel JSON object.  A field the payload lacks behaves in
the source like a non-matching value (strict `===` against a literal), so
`type` and `role` are plain strings; `msg.sources` is read with `|| []`, so its
absence is kept explicit. -/
structure RawMsg where
  type : String
  role : String
  text : String
  sources : Option (List RagSource)
deriving DecidableEq, Repr

/-- The `handleData` listener (RagSources.tsx lines 186-200).  `none` stands
for a payload `JSON.parse` rejects (the handler catches and ignores it).
Returns the `onTranscript` calls made and the `onRagSources` argument, if any. -/
def handleData (payload : Option RawMsg) (streamingActive : Bool) :
    List TranscriptMessage × Option (List RagSource) :=
  match payload with
  | none => ([], none)
  | some msg =>
    if msg.type = "transcript" then
      if msg.role = "user" then
        ([⟨Role.user, msg.text⟩], none)
      else if msg.role = "agent" ∧ ¬streamingActive then
        ([⟨Role.agent, msg.text⟩], none)
      else ([], none)
    else if msg.type = "rag_sources" then
      ([], some (msg.sources.getD []))
    else ([], none)

/-- An observable event hitting `ActiveCall`: a run of the transcription
effect on a snapshot of `agentTranscriptions`, or a data-channel message. -/
inductive CallEvent where
  | eff (segs : List Segment)
  | data (payload : Option RawMsg)

/-- The reconciler refs plus the transcript messages forwarded so far
through `onTranscript`. -/
structure CallState where
  recSt : ReconcilerState
  out : List TranscriptMessage
deriving DecidableEq, Repr

/-- Process one `CallEvent` against the `ActiveCall` state. -/
def stepCall (st : CallState) (e : CallEvent) : CallState :=
  match e with
  | .eff segs => { st with recSt := (runReconciler segs st.recSt).1 }
  | .data p => { st with out := st.out ++ (handleData p st.recSt.streamingActive).1 }

/-- Process a sequence of `CallEvent`s in order. -/
def runCall (st : CallState) (es : List CallEvent) : CallState :=
  es.foldl stepCall st

/-- The App component's state: the transcript message list and
`isStreamingRef`. -/
structure AppState where
  messages : List TranscriptMessage
  isStreaming : Bool
deriving DecidableEq, Repr

/-- App's `handleTranscript`: clears the streaming flag and appends. -/
def handleTranscript (msg : TranscriptMessage) (s : AppState) : AppState :=
  { messages := s.messages ++ [msg], isStreaming := false }

/-- The in-place replacement inside `handleAgentStream`: copy the list and,
when the last element exists and has role `'agent'`, replace its text. -/
def setLastAgentText (msgs : List TranscriptMessage) (fullText : String) :
    List TranscriptMessage :=
  match msgs.getLast? with
  | some last =>
    if last.role = Role.agent then
      msgs.dropLast ++ [{ last with text := fullText }]
    else msgs
  | none => msgs

/-- App's `handleAgentStream` (new bubble when not streaming, otherwise
replace the trailing agent bubble's text; clear the flag when final). -/
def handleAgentStream (fullText : String) (isFinal : Bool) (s : AppState) : AppState :=
  let s' :=
    if ¬s.isStreaming then
      { messages := s.messages ++ [⟨Role.agent, fullText⟩], isStreaming := true }
    else
      { s with messages := setLastAgentText s.messages fullText }
  if isFinal then { s' with isStreaming := false } else s'

/-- An awaited `fetch` response: its `ok` flag, and its body already decoded
at the type the caller reads it at. -/
structure Resp (α : Type) where
  ok : Bool
  body : α

/-- Body of `POST /api/token`. -/
structure TokenResponse where
  token : String
  url : String
  room_name : String
deriving DecidableEq, Repr

/-- A document record from the backend. -/
structure DocumentInfo where
  id : String
  filename : String
  filepath : Option String
  chunk_count : Option Nat
  status : String
deriving DecidableEq, Repr

/-- Body of `GET /api/documents`. -/
structure DocumentsBody where
  documents : List DocumentInfo
deriving DecidableEq, Repr

/-- Body of `GET /api/prompt`. -/
structure PromptBody where
  prompt : String
deriving DecidableEq, Repr

/-- Body of the agent status/start endpoints. -/
structure AgentStatus where
  running : Bool
  pid : Option Nat
  mode : Option String
deriving DecidableEq, Repr

/-- Whether an `Except` result is a success. -/
def exOk {α : Type} : Except String α → Bool
  | .ok _ => true
  | .error _ => false

/-- `getToken` (client.ts lines 11-22): throw on `!res.ok`, else the body. -/
def getToken (res : Resp TokenResponse) : Except String TokenResponse :=
  if res.ok then .ok res.body else .error "Failed to get token"

/-- `uploadDocument` (client.ts lines 34-47).  `errDetail` is the `detail`
field of the decoded error body: `none` when the body fails to decode or
lacks the field, and `err.detail || 'Upload failed'` treats `""` as absent. -/
def uploadDocument (res : Resp DocumentInfo) (errDetail : Option String) :
    Except String DocumentInfo :=
  if res.ok then .ok res.body
  else .error (match errDetail with
    | some d => if d = "" then "Upload failed" else d
    | none => "Upload failed")

/-- `listDocuments` (client.ts lines 49-54): returns `data.documents`. -/
def listDocuments (res : Resp DocumentsBody) : Except String (List DocumentInfo) :=
  if res.ok then .ok res.body.documents else .error "Failed to list documents"

/-- `deleteDocument` (client.ts lines 56-61). -/
def deleteDocument (docId : String) (res : Resp Unit) : Except String Unit :=
  if res.ok then .ok res.body else .error "Failed to delete document"

/-- `getPrompt` (client.ts lines 65-70): returns `data.prompt`. -/
def getPrompt (res : Resp PromptBody) : Except String String :=
  if res.ok then .ok res.body.prompt else .error "Failed to get prompt"

/-- `updatePrompt` (client.ts lines 72-79). -/
def updatePrompt (prompt : String) (res : Resp Unit) : Except String Unit :=
  if res.ok then .ok res.body else .error "Failed to update prompt"

/-- `getAgentStatus` (client.ts lines 89-93). -/
def getAgentStatus (res : Resp AgentStatus) : Except String AgentStatus :=
  if res.ok then .ok res.body else .error "Failed to get agent status"

/-- `startAgent` (client.ts lines 95-103). -/
def startAgent (mode : String) (res : Resp AgentStatus) : Except String AgentStatus :=
  if res.ok then .ok res.body else .error "Failed to start agent"

/-- `stopAgent` (client.ts lines 105-108). -/
def stopAgent (res : Resp Unit) : Except String Unit :=
  if res.ok then .ok res.body else .error "Failed to stop agent"

/-- Modelled from the spec: the backend's single-active-session registry is
not among the provided sources (only the spec describes it, §3, §4.5, §7, §9:
a module-level flag modelled as an explicit registry with atomic
acquire-on-connect / release-on-disconnect).  `active` holds the id of the
one `Active` session, `none` when free. -/
structure SessionRegistry where
  active : Option String
deriving DecidableEq, Repr

/-- Modelled from the spec: acquire-on-connect.  A second connection attempt
while one session is `Active` is rejected immediately with a descriptive
session-conflict failure — never queued, never silently dropped. -/
def acquireSession (r : SessionRegistry) (sid : String) :
    Except String SessionRegistry :=
  match r.active with
  | some _ => .error "SessionConflict: another session is already active"
  | none => .ok { active := some sid }

/-- Modelled from the spec: release-on-disconnect frees the lock. -/
def releaseSession (_ : SessionRegistry) : SessionRegistry :=
  { active := none }

/-- How many sessions a registry holds in the `Active` state. -/
def activeCount (r : SessionRegistry) : Nat :=
  r.active.toList.length

/-! ## Helper lemmas about the reconciler -/

theorem runReconciler_nil (st : ReconcilerState) :
    runReconciler [] st =
      ({ committedIndex := 0, lastText := "", streamingActive := st.streamingActive }, []) :=
  rfl

theorem runReconciler_unfold (segs : List Segment) (st : ReconcilerState)
    (hlen : st.committedIndex < segs.length) :
    runReconciler segs st =
      (if allFinal (segs.drop st.committedIndex) then
        ({ committedIndex := segs.length, lastText := "",
           streamingActive :=
             if joinTexts (segs.drop st.committedIndex) ≠ st.lastText
             then true else st.streamingActive },
         if joinTexts (segs.drop st.committedIndex) ≠ st.lastText
         then [(joinTexts (segs.drop st.committedIndex),
                allFinal (segs.drop st.committedIndex))] else [])
      else
        (if joinTexts (segs.drop st.committedIndex) ≠ st.lastText
         then { st with lastText := joinTexts (segs.drop st.committedIndex),
                        streamingActive := true } else st,
         if joinTexts (segs.drop st.committedIndex) ≠ st.lastText
         then [(joinTexts (segs.drop st.committedIndex),
                allFinal (segs.drop st.committedIndex))] else [])) := by
  have h0 : ¬ segs.length = 0 := by omega
  have h1 : ¬ (segs.drop st.committedIndex).length = 0 := by
    rw [List.length_drop]; omega
  unfold runReconciler
  rw [if_neg h0]
  simp only []
  rw [if_neg h1]
  by_cases hne : joinTexts (segs.drop st.committedIndex) ≠ st.lastText
  · simp only [if_pos hne]
  · simp only [if_neg hne]

theorem runReconciler_final (segs : List Segment) (st : ReconcilerState)
    (hlen : st.committedIndex < segs.length)
    (hf : allFinal (segs.drop st.committedIndex) = true) :
    runReconciler segs st =
      ({ committedIndex := segs.length, lastText := "",
         streamingActive :=
           if joinTexts (segs.drop st.committedIndex) ≠ st.lastText
           then true else st.streamingActive },
       if joinTexts (segs.drop st.committedIndex) ≠ st.lastText
       then [(joinTexts (segs.drop st.committedIndex), true)] else []) := by
  rw [runReconciler_unfold segs st hlen, if_pos hf, hf]

theorem runReconciler_nonfinal (segs : List Segment) (st : ReconcilerState)
    (hlen : st.committedIndex < segs.length)
    (hnf : allFinal (segs.drop st.committedIndex) = false) :
    (runReconciler segs st).1.committedIndex = st.committedIndex ∧
    ∀ e ∈ (runReconciler segs st).2, e.2 = false := by
  rw [runReconciler_unfold segs st hlen]
  rw [if_neg (by simp [hnf])]
  by_cases hne : joinTexts (segs.drop st.committedIndex) ≠ st.lastText
  · simp [hne, hnf]
  · simp [hne]

theorem runAll_nil (st : ReconcilerState) : runAll [] st = (st, []) := rfl

theorem runAll_cons (s : List Segment) (rest : List (List Segment))
    (st : ReconcilerState) :
    runAll (s :: rest) st =
      ((runAll rest (runReconciler s st).1).1,
       (runReconciler s st).2 ++ (runAll rest (runReconciler s st).1).2) := rfl

theorem runAll_append (xs ys : List (List Segment)) (st : ReconcilerState) :
    runAll (xs ++ ys) st =
      ((runAll ys (runAll xs st).1).1,
       (runAll xs st).2 ++ (runAll ys (runAll xs st).1).2) := by
  induction xs generalizing st with
  | nil => simp [runAll_nil]
  | cons s rest ih =>
    simp only [List.cons_append, runAll_cons, ih, List.append_assoc]

theorem runAll_keep (c : Nat) (pre : List (List Segment)) :
    ∀ st : ReconcilerState, st.committedIndex = c →
    (∀ s ∈ pre, c < s.length ∧ allFinal (s.drop c) = false) →
    (runAll pre st).1.committedIndex = c ∧
    ∀ e ∈ (runAll pre st).2, e.2 = false := by
  induction pre with
  | nil =>
    intro st hc _
    exact ⟨hc, by simp [runAll_nil]⟩
  | cons s rest ih =>
    intro st hc hall
    have hs := hall s (by simp)
    have h1 := runReconciler_nonfinal s st (by rw [hc]; exact hs.1)
      (by rw [hc]; exact hs.2)
    have hrest := ih (runReconciler s st).1 (h1.1.trans hc)
      (fun x hx => hall x (by simp [hx]))
    rw [runAll_cons]
    refine ⟨hrest.1, ?_⟩
    intro e he
    simp only [List.mem_append] at he
    rcases he with he | he
    · exact h1.2 e he
    · exact hrest.2 e he

theorem runReconciler_stale (segs : List Segment) (st : ReconcilerState)
    (h0 : ¬ segs.length = 0)
    (h1 : (segs.drop st.committedIndex).length = 0) :
    runReconciler segs st = (st, []) := by
  unfold runReconciler
  rw [if_neg h0]
  simp only []
  rw [if_pos h1]

theorem runReconciler_emit_text (segs : List Segment) (st : ReconcilerState) :
    ∀ e ∈ (runReconciler segs st).2, e.1 = joinTexts (segs.drop st.committedIndex) := by
  intro e he
  by_cases h0 : segs.length = 0
  · obtain rfl : segs = [] := List.length_eq_zero.mp h0
    rw [runReconciler_nil] at he
    simp at he
  · by_cases h1 : (segs.drop st.committedIndex).length = 0
    · rw [runReconciler_stale segs st h0 h1] at he
      simp at he
    · have hlen : st.committedIndex < segs.length := by
        rw [List.length_drop] at h1; omega
      rw [runReconciler_unfold segs st hlen] at he
      by_cases hf : allFinal (segs.drop st.committedIndex) = true <;>
        by_cases hne : joinTexts (segs.drop st.committedIndex) ≠ st.lastText <;>
        simp_all

theorem runReconciler_streaming_mono (segs : List Segment) (st : ReconcilerState)
    (h : st.streamingActive = true) :
    (runReconciler segs st).1.streamingActive = true := by
  by_cases h0 : segs.length = 0
  · obtain rfl : segs = [] := List.length_eq_zero.mp h0
    rw [runReconciler_nil]
    exact h
  · by_cases h1 : (segs.drop st.committedIndex).length = 0
    · rw [runReconciler_stale segs st h0 h1]
      exact h
    · have hlen : st.committedIndex < segs.length := by
        rw [List.length_drop] at h1; omega
      rw [runReconciler_unfold segs st hlen]
      by_cases hf : allFinal (segs.drop st.committedIndex) = true <;>
        by_cases hne : joinTexts (segs.drop st.committedIndex) ≠ st.lastText <;>
        simp_all

theorem handleAgentStream_messages (t : String) (f : Bool) (s : AppState) :
    (handleAgentStream t f s).messages =
      if s.isStreaming then setLastAgentText s.messages t
      else s.messages ++ [⟨Role.agent, t⟩] := by
  unfold handleAgentStream
  by_cases hs : s.isStreaming <;> by_cases hf : f <;> simp [hs, hf]

theorem setLastAgentText_agent (msgs : List TranscriptMessage)
    (last : TranscriptMessage) (t : String)
    (hl : msgs.getLast? = some last) (hr : last.role = Role.agent) :
    setLastAgentText msgs t = msgs.dropLast ++ [⟨Role.agent, t⟩] := by
  unfold setLastAgentText
  rw [hl]
  simp only [if_pos hr]
  obtain ⟨lr, ltx⟩ := last
  simp_all

theorem setLastAgentText_other (msgs : List TranscriptMessage)
    (last : TranscriptMessage) (t : String)
    (hl : msgs.getLast? = some last) (hr : ¬ last.role = Role.agent) :
    setLastAgentText msgs t = msgs := by
  unfold setLastAgentText
  rw [hl]
  simp only [if_neg hr]

theorem setLastAgentText_nil (t : String) : setLastAgentText [] t = [] := rfl

theorem exOk_cond {α : Type} (c : Bool) (v : α) (s : String) :
    exOk (if c = true then Except.ok v else Except.error s) = c := by
  cases c <;> rfl

/-! ## Claim theorems -/

/-- C7: when the segment list for the current turn is empty, the reconciler
resets its cursor to zero and clears the last-emitted text, leaving the
streaming flag as it was, and emits no streaming update and no commit. -/
theorem C7_empty_resets (st : ReconcilerState) :
    runReconciler [] st =
      ({ committedIndex := 0, lastText := "", streamingActive := st.streamingActive }, []) :=
  rfl

/-- C4: every streaming update a run emits has as its text the space-join of
exactly the uncommitted segments (ordinal index ≥ the committed cursor), so a
segment committed in a prior turn never contributes to a later update; and
when all uncommitted segments are final, the run commits: the cursor advances
to the end of the list and the last-emitted text is cleared. -/
theorem C4_uncommitted_only (segs : List Segment) (st : ReconcilerState) :
    (∀ e ∈ (runReconciler segs st).2,
        e.1 = joinTexts (segs.drop st.committedIndex)) ∧
    (0 < (segs.drop st.committedIndex).length →
      allFinal (segs.drop st.committedIndex) = true →
      (runReconciler segs st).1.committedIndex = segs.length ∧
      (runReconciler segs st).1.lastText = "") ∧
    (¬segs.length = 0 →
      st.committedIndex ≤ (runReconciler segs st).1.committedIndex) := by
  refine ⟨runReconciler_emit_text segs st, ?_, ?_⟩
  · intro hpos hf
    have hlen : st.committedIndex < segs.length := by
      rw [List.length_drop] at hpos; omega
    rw [runReconciler_final segs st hlen hf]
    by_cases hne : joinTexts (segs.drop st.committedIndex) ≠ st.lastText <;> simp [hne]
  · intro h0
    by_cases h1 : (segs.drop st.committedIndex).length = 0
    · rw [runReconciler_stale segs st h0 h1]
    · have hlen : st.committedIndex < segs.length := by
        rw [List.length_drop] at h1; omega
      by_cases hf : allFinal (segs.drop st.committedIndex) = true
      · rw [runReconciler_final segs st hlen hf]
        dsimp only
        omega
      · have hf' : allFinal (segs.drop st.committedIndex) = false := by
          revert hf; cases allFinal (segs.drop st.committedIndex) <;> simp
        have := runReconciler_nonfinal segs st hlen hf'
        omega

/-- C4 witness: a concrete run at one final segment commits with the joined
text emitted from the uncommitted suffix. -/
theorem C4_uncommitted_only_witness :
    (("hi", true).1 = joinTexts (([⟨"hi", true⟩] : List Segment).drop 0)) ∧
    ((runReconciler [⟨"hi", true⟩] ⟨0, "", false⟩).1.committedIndex = 1 ∧
     (runReconciler [⟨"hi", true⟩] ⟨0, "", false⟩).1.lastText = "") ∧
    (0 : Nat) ≤ (runReconciler [⟨"hi", true⟩] ⟨0, "", false⟩).1.committedIndex :=
  ⟨(C4_uncommitted_only [⟨"hi", true⟩] ⟨0, "", false⟩).1 ("hi", true) (by decide),
   (C4_uncommitted_only [⟨"hi", true⟩] ⟨0, "", false⟩).2.1 (by decide) (by decide),
   (C4_uncommitted_only [⟨"hi", true⟩] ⟨0, "", false⟩).2.2 (by decide)⟩

/-- C3: a run emits a streaming update only when the recomputed joined text
differs from the last emitted text, and re-running the effect on the very same
segment list from the resulting state emits nothing and changes nothing (no
second commit). -/
theorem C3_no_duplicates (segs : List Segment) (st : ReconcilerState) :
    ((runReconciler segs st).2 ≠ [] →
        joinTexts (segs.drop st.committedIndex) ≠ st.lastText) ∧
    runReconciler segs (runReconciler segs st).1 = ((runReconciler segs st).1, []) := by
  by_cases h0 : segs.length = 0
  · obtain rfl : segs = [] := List.length_eq_zero.mp h0
    refine ⟨by simp [runReconciler_nil], ?_⟩
    rw [runReconciler_nil, runReconciler_nil]
  · by_cases h1 : (segs.drop st.committedIndex).length = 0
    · rw [runReconciler_stale segs st h0 h1]
      exact ⟨by simp, runReconciler_stale segs st h0 h1⟩
    · have hlen : st.committedIndex < segs.length := by
        rw [List.length_drop] at h1; omega
      by_cases hf : allFinal (segs.drop st.committedIndex) = true
      · rw [runReconciler_final segs st hlen hf]
        constructor
        · intro hne heq
          simp only [if_neg (not_not_intro heq)] at hne
          exact hne rfl
        · apply runReconciler_stale segs _ h0
          simp [List.length_drop]
      · have hf' : allFinal (segs.drop st.committedIndex) = false := by
          revert hf; cases allFinal (segs.drop st.committedIndex) <;> simp
        rw [runReconciler_unfold segs st hlen]
        rw [if_neg (by simp [hf'])]
        by_cases hne : joinTexts (segs.drop st.committedIndex) ≠ st.lastText
        · rw [if_pos hne, if_pos hne]
          constructor
          · intro _; exact hne
          · rw [runReconciler_unfold _ _ (by simpa using hlen)]
            simp [hf']
        · rw [if_neg hne, if_neg hne]
          constructor
          · intro h; exact absurd rfl h
          · rw [runReconciler_unfold _ _ hlen]
            simp [hf', hne]

/-- C3 witness: concrete instance — the first run on one non-final segment
emits (so its text differs from the last emitted text), and a second run on
the identical list is a no-op. -/
theorem C3_no_duplicates_witness :
    (joinTexts (([⟨"a", false⟩] : List Segment).drop 0) ≠
        (⟨0, "", false⟩ : ReconcilerState).lastText) ∧
    runReconciler [⟨"a", false⟩] (runReconciler [⟨"a", false⟩] ⟨0, "", false⟩).1 =
      ((runReconciler [⟨"a", false⟩] ⟨0, "", false⟩).1, []) :=
  ⟨(C3_no_duplicates [⟨"a", false⟩] ⟨0, "", false⟩).1 (by decide),
   (C3_no_duplicates [⟨"a", false⟩] ⟨0, "", false⟩).2⟩

/-- C1 counterexample: a turn whose segment evolves from non-final to final
without its text changing.  The snapshot sequence `[ [("a", not final)],
[("a", final)] ]` satisfies the claim's premise — a single turn (cursor 0)
every segment of which is eventually final — yet the reconciler emits ZERO
streaming updates with the final flag set (the only emission carries
`final = false`), not exactly one: at the finalizing run the joined text
equals the last emitted text, so the emission is skipped while the cursor
still advances. -/
theorem C1_counterexample :
    (∀ s ∈ ([[⟨"a", false⟩]] : List (List Segment)),
        0 < s.length ∧ allFinal (s.drop 0) = false) ∧
    0 < ([⟨"a", true⟩] : List Segment).length ∧
    allFinal (([⟨"a", true⟩] : List Segment).drop 0) = true ∧
    List.filter (fun e => e.2)
      (runAll ([[⟨"a", false⟩]] ++ [[⟨"a", true⟩]]) ⟨0, "", false⟩).2 = [] := by
  decide

/-- C1 amended: over a turn's whole run sequence — intermediate snapshots not
yet all-final beyond the cursor `c`, last snapshot all-final — the reconciler
emits AT MOST one final-flagged streaming update: exactly one, whose text is
the space-join in ordinal order of the uncommitted segments (index ≥ c), when
that joined text differs from the last emitted text, and none when the
finalizing snapshot's text is unchanged from the last emitted text. -/
theorem C1_commit_once (c : Nat) (lt : String) (b : Bool)
    (pre : List (List Segment)) (lastS : List Segment)
    (hpre : ∀ s ∈ pre, c < s.length ∧ allFinal (s.drop c) = false)
    (hlen : c < lastS.length)
    (hfin : allFinal (lastS.drop c) = true) :
    List.filter (fun e => e.2) (runAll (pre ++ [lastS]) ⟨c, lt, b⟩).2 =
      (if joinTexts (lastS.drop c) = ((runAll pre ⟨c, lt, b⟩).1).lastText then []
       else [(joinTexts (lastS.drop c), true)]) := by
  have hkeep := runAll_keep c pre ⟨c, lt, b⟩ rfl hpre
  rw [runAll_append, List.filter_append]
  have hpre0 : List.filter (fun e => e.2) (runAll pre ⟨c, lt, b⟩).2 = [] := by
    rw [List.filter_eq_nil_iff]
    intro e he
    simp [hkeep.2 e he]
  rw [hpre0, List.nil_append]
  set mid := (runAll pre ⟨c, lt, b⟩).1 with hmid
  have hflen : mid.committedIndex < lastS.length := by rw [hkeep.1]; exact hlen
  have hffin : allFinal (lastS.drop mid.committedIndex) = true := by
    rw [hkeep.1]; exact hfin
  rw [runAll_cons, runReconciler_final lastS mid hflen hffin, hkeep.1]
  by_cases heq : joinTexts (lastS.drop c) = mid.lastText
  · simp only [if_pos heq, if_neg (not_not_intro heq), runAll_nil]
    simp
  · simp only [if_neg heq, if_pos heq, runAll_nil]
    simp

/-- C1 witness: a single all-final snapshot with fresh state commits exactly
one final-flagged update carrying the joined text. -/
theorem C1_commit_once_witness :
    List.filter (fun e => e.2)
        (runAll (([] : List (List Segment)) ++ [[⟨"hi", true⟩]]) ⟨0, "", false⟩).2 =
      (if joinTexts (([⟨"hi", true⟩] : List Segment).drop 0) =
          ((runAll [] ⟨0, "", false⟩).1).lastText then []
       else [(joinTexts (([⟨"hi", true⟩] : List Segment).drop 0), true)]) :=
  C1_commit_once 0 "" false [] [⟨"hi", true⟩] (by simp) (by decide) (by decide)

/-- C2 counterexample: the suppression of agent fallback transcripts is NOT
scoped to the turn in which streaming started.  After a single effect run on
one final segment, that turn has fully committed (cursor 1 = list length,
last-emitted text cleared), yet the streaming-active flag is still set — it is
never cleared anywhere — so an agent `transcript` data event arriving
afterwards, with no streaming active for any current turn, is still dropped
(nothing is appended). -/
theorem C2_counterexample :
    (runCall ⟨⟨0, "", false⟩, []⟩ [CallEvent.eff [⟨"hi", true⟩]]).recSt.committedIndex = 1 ∧
    (runCall ⟨⟨0, "", false⟩, []⟩ [CallEvent.eff [⟨"hi", true⟩]]).recSt.lastText = "" ∧
    (runCall ⟨⟨0, "", false⟩, []⟩ [CallEvent.eff [⟨"hi", true⟩]]).recSt.streamingActive = true ∧
    (runCall ⟨⟨0, "", false⟩, []⟩
        [CallEvent.eff [⟨"hi", true⟩],
         CallEvent.data (some ⟨"transcript", "agent", "late", none⟩)]).out = [] := by
  decide

/-- C2 amended: an out-of-band agent `transcript` data event is suppressed
whenever the streaming-active flag is set, and caller (`user`) transcript
events are always appended; but the flag, once set by a streaming emission, is
never cleared by any later effect run, so the suppression persists for the
rest of the session rather than being scoped to the turn in which streaming
started. -/
theorem C2_fallback_suppressed (m : RawMsg) (b : Bool)
    (segs : List Segment) (st : ReconcilerState) :
    (m.type = "transcript" → m.role = "agent" →
        (handleData (some m) true).1 = []) ∧
    (m.type = "transcript" → m.role = "user" →
        (handleData (some m) b).1 = [⟨Role.user, m.text⟩]) ∧
    (st.streamingActive = true → (runReconciler segs st).1.streamingActive = true) := by
  refine ⟨?_, ?_, runReconciler_streaming_mono segs st⟩
  · intro ht hr
    simp [handleData, ht, hr]
  · intro ht hr
    simp [handleData, ht, hr]

/-- C2 amended witness: a concrete agent fallback is suppressed while the
flag is set, a concrete user transcript is appended, and the flag survives a
concrete effect run. -/
theorem C2_fallback_suppressed_witness :
    (handleData (some ⟨"transcript", "agent", "x", none⟩) true).1 = [] ∧
    (handleData (some ⟨"transcript", "user", "y", none⟩) false).1 = [⟨Role.user, "y"⟩] ∧
    (runReconciler [⟨"z", false⟩] ⟨0, "", true⟩).1.streamingActive = true :=
  ⟨(C2_fallback_suppressed ⟨"transcript", "agent", "x", none⟩ false [] ⟨0, "", true⟩).1
      rfl rfl,
   (C2_fallback_suppressed ⟨"transcript", "user", "y", none⟩ false [] ⟨0, "", true⟩).2.1
      rfl rfl,
   (C2_fallback_suppressed ⟨"transcript", "user", "y", none⟩ false
      [⟨"z", false⟩] ⟨0, "", true⟩).2.2 rfl⟩

/-- C5: the frame property of the App transcript handlers: `handleTranscript`
only appends; `handleAgentStream` either appends a fresh agent message (when
streaming was not active) or rewrites only the text of the trailing message,
and only when that trailing message has role `agent`; every other message is
left element-wise unchanged. -/
theorem C5_frame (msg : TranscriptMessage) (t : String) (f : Bool) (s : AppState) :
    (handleTranscript msg s).messages = s.messages ++ [msg] ∧
    (s.isStreaming = false →
        (handleAgentStream t f s).messages = s.messages ++ [⟨Role.agent, t⟩]) ∧
    (s.isStreaming = true →
        ∀ last : TranscriptMessage, s.messages.getLast? = some last →
        (last.role = Role.agent →
          (handleAgentStream t f s).messages = s.messages.dropLast ++ [⟨Role.agent, t⟩]) ∧
        (¬last.role = Role.agent →
          (handleAgentStream t f s).messages = s.messages)) ∧
    (s.isStreaming = true → s.messages = [] →
        (handleAgentStream t f s).messages = []) := by
  refine ⟨rfl, ?_, ?_, ?_⟩
  · intro hs
    rw [handleAgentStream_messages, if_neg (by simp [hs])]
  · intro hs last hl
    constructor
    · intro hr
      rw [handleAgentStream_messages, if_pos (by simp [hs]),
          setLastAgentText_agent s.messages last t hl hr]
    · intro hr
      rw [handleAgentStream_messages, if_pos (by simp [hs]),
          setLastAgentText_other s.messages last t hl hr]
  · intro hs hnil
    rw [handleAgentStream_messages, if_pos (by simp [hs]), hnil, setLastAgentText_nil]

/-- C5 witness: concrete instances of the append case, the replace-last-agent
case, and the streaming-append case. -/
theorem C5_frame_witness :
    (handleTranscript ⟨Role.user, "q"⟩ ⟨[], false⟩).messages = [] ++ [⟨Role.user, "q"⟩] ∧
    (handleAgentStream "t" false ⟨[], false⟩).messages = [] ++ [⟨Role.agent, "t"⟩] ∧
    (handleAgentStream "t" false ⟨[⟨Role.agent, "old"⟩], true⟩).messages =
      ([⟨Role.agent, "old"⟩] : List TranscriptMessage).dropLast ++ [⟨Role.agent, "t"⟩] :=
  ⟨(C5_frame ⟨Role.user, "q"⟩ "t" false ⟨[], false⟩).1,
   (C5_frame ⟨Role.user, "q"⟩ "t" false ⟨[], false⟩).2.1 rfl,
   ((C5_frame ⟨Role.user, "q"⟩ "t" false ⟨[⟨Role.agent, "old"⟩], true⟩).2.2.1
      rfl ⟨Role.agent, "old"⟩ rfl).1 rfl⟩

/-- C9: when `handleAgentStream` runs while streaming is marked active but
the most recent transcript message is a caller message, the message list is
left element-wise unchanged — the streamed text is dropped, no new bubble is
created and the caller's message is not overwritten. -/
theorem C9_stream_dropped (t : String) (f : Bool) (s : AppState)
    (last : TranscriptMessage)
    (hs : s.isStreaming = true)
    (hl : s.messages.getLast? = some last)
    (hr : last.role = Role.user) :
    (handleAgentStream t f s).messages = s.messages := by
  rw [handleAgentStream_messages, if_pos (by simp [hs])]
  exact setLastAgentText_other s.messages last t hl (by rw [hr]; decide)

/-- C9 witness: a concrete mid-stream caller message survives an agent
stream call unchanged. -/
theorem C9_stream_dropped_witness :
    (handleAgentStream "t" false ⟨[⟨Role.user, "hi"⟩], true⟩).messages =
      [⟨Role.user, "hi"⟩] :=
  C9_stream_dropped "t" false ⟨[⟨Role.user, "hi"⟩], true⟩ ⟨Role.user, "hi"⟩
    rfl rfl rfl

/-- C8: the data-channel payload is validated into the closed tagged union
{`transcript`, `rag_sources`}: an unparsable payload or one whose `type` is
neither tag produces no transcript output and no sources update (and the
handler, which catches everything, raises nothing); transcript output can
only come from a `transcript` payload and a sources update only from a
`rag_sources` payload. -/
theorem C8_closed_union (p : Option RawMsg) (b : Bool) :
    handleData none b = ([], none) ∧
    (∀ m : RawMsg, p = some m → ¬m.type = "transcript" → ¬m.type = "rag_sources" →
        handleData p b = ([], none)) ∧
    ((handleData p b).1 ≠ [] → ∃ m, p = some m ∧ m.type = "transcript") ∧
    ((handleData p b).2 ≠ none → ∃ m, p = some m ∧ m.type = "rag_sources") := by
  refine ⟨rfl, ?_, ?_, ?_⟩
  · rintro m rfl h1 h2
    simp [handleData, h1, h2]
  · cases p with
    | none => intro h; simp [handleData] at h
    | some m =>
      intro h
      refine ⟨m, rfl, ?_⟩
      by_contra hm
      by_cases h2 : m.type = "rag_sources" <;> simp [handleData, hm, h2] at h
  · cases p with
    | none => intro h; simp [handleData] at h
    | some m =>
      intro h
      refine ⟨m, rfl, ?_⟩
      by_contra hm
      by_cases h1 : m.type = "transcript"
      · exact h (by simp only [handleData]; split_ifs <;> rfl)
      · simp [handleData, h1, hm] at h

/-- C8 witness: a payload of an unknown type changes neither the transcript
nor the sources panel. -/
theorem C8_closed_union_witness :
    handleData (some ⟨"bogus", "user", "x", none⟩) false = ([], none) :=
  (C8_closed_union (some ⟨"bogus", "user", "x", none⟩) false).2.1
    ⟨"bogus", "user", "x", none⟩ rfl (by decide) (by decide)

/-- C10: every backend API client function succeeds with a value derived from
the response exactly when the response is ok, and throws otherwise
(raises-iff-not-ok for all nine functions). -/
theorem C10_raises_iff_not_ok (r1 : Resp TokenResponse) (r2 : Resp DocumentInfo)
    (e2 : Option String) (r3 : Resp DocumentsBody) (d : String) (r4 : Resp Unit)
    (r5 : Resp PromptBody) (p : String) (r6 : Resp Unit) (r7 : Resp AgentStatus)
    (m : String) (r8 : Resp AgentStatus) (r9 : Resp Unit) :
    exOk (getToken r1) = r1.ok ∧
    exOk (uploadDocument r2 e2) = r2.ok ∧
    exOk (listDocuments r3) = r3.ok ∧
    exOk (deleteDocument d r4) = r4.ok ∧
    exOk (getPrompt r5) = r5.ok ∧
    exOk (updatePrompt p r6) = r6.ok ∧
    exOk (getAgentStatus r7) = r7.ok ∧
    exOk (startAgent m r8) = r8.ok ∧
    exOk (stopAgent r9) = r9.ok :=
  ⟨exOk_cond r1.ok r1.body _, exOk_cond r2.ok r2.body _, exOk_cond r3.ok r3.body.documents _,
   exOk_cond r4.ok r4.body _, exOk_cond r5.ok r5.body.prompt _, exOk_cond r6.ok r6.body _,
   exOk_cond r7.ok r7.body _, exOk_cond r8.ok r8.body _, exOk_cond r9.ok r9.body _⟩

/-- C6 (modelled from the spec — the backend session lock is not among the
provided sources): at most one session is `Active` in any registry state; a
connection attempt on a free registry activates that session; a second
connection attempt while one is `Active` fails immediately with a descriptive
session-conflict error and is neither queued nor silently dropped (the
registry it would return is unchanged, and the result is an explicit error). -/
theorem C6_single_active_session (r : SessionRegistry) (sid : String) :
    activeCount r ≤ 1 ∧
    (r.active = none → acquireSession r sid = .ok { active := some sid }) ∧
    (∀ s0, r.active = some s0 →
        acquireSession r sid =
          .error "SessionConflict: another session is already active") := by
  refine ⟨?_, ?_, ?_⟩
  · cases h : r.active <;> simp [activeCount, h]
  · intro h; simp [acquireSession, h]
  · intro s0 h; simp [acquireSession, h]

/-- C6 witness: with session `"s1"` active, a second attempt `"s2"` is
rejected with the session-conflict error; on a free registry it succeeds. -/
theorem C6_single_active_session_witness :
    acquireSession ⟨some "s1"⟩ "s2" =
      .error "SessionConflict: another session is already active" ∧
    acquireSession ⟨none⟩ "s2" = .ok ⟨some "s2"⟩ :=
  ⟨(C6_single_active_session ⟨some "s1"⟩ "s2").2.2 "s1" rfl,
   (C6_single_active_session ⟨none⟩ "s2").2.1 rfl⟩
